import Mathlib

set_option maxRecDepth 100000

/-!
# Verification of the novel_parser resilient crawl engine

Shallow embedding, in Lean 4, of the parts of the `novel_parser`
repository that the specification's claims are about:

* `fetchPage` (src/novel_parser/parser/browserComponents/fetch_page.js):
  the retry loop, status-code handling, block heuristic, and the
  exhausted-retries error.
* `solveFont` / `decodeObfuscatedText`
  (src/novel_parser/scripts/cleaners/): catalog lookup, the
  gap-completion heuristic, and text decoding.
* the page pool (src/novel_parser/parser/browserComponents/browser_init.js):
  `getPage`, `recyclePage`, `getPageStats`, `closeBrowser`.
* the batch loop (src/novel_parser/parser/parser_init.js): selection of
  PENDING entities and the status writes each entity receives.

Effectful steps (navigation results, CAPTCHA solving, file reads, font
parsing, discovery outcomes, random draws) are modelled as explicit
inputs; thrown JS errors are modelled with `Except`.
-/

namespace NovelParser

/-! ## Substring containment (model of JS `String.prototype.includes`) -/

/-- `beginsWith l n` holds when `n` is an initial segment of `l`. -/
def beginsWith : List Char → List Char → Bool
  | _, [] => true
  | [], _ :: _ => false
  | h :: hs, n :: ns => h = n && beginsWith hs ns

/-- `listContains hay need`: `need` occurs contiguously inside `hay`.
Model of JS `hay.includes(need)`. -/
def listContains : List Char → List Char → Bool
  | [], need => need.isEmpty
  | h :: t, need => beginsWith (h :: t) need || listContains t need

/-- String-level wrapper for `listContains`. -/
def includesSub (s pat : String) : Bool :=
  listContains s.toList pat.toList

/-- Specification-level meaning of "`s` contains `pat`": the characters
of `pat` occur contiguously inside the characters of `s`. -/
def ContainsStr (s pat : String) : Prop :=
  ∃ pre post, s.toList = pre ++ pat.toList ++ post

theorem beginsWith_iff (l n : List Char) :
    beginsWith l n = true ↔ ∃ post, l = n ++ post := by
  induction n generalizing l with
  | nil =>
    simp [beginsWith]
  | cons c cs ih =>
    cases l with
    | nil => simp [beginsWith]
    | cons h t =>
      simp only [beginsWith, Bool.and_eq_true, decide_eq_true_eq, ih,
        List.cons_append, List.cons.injEq]
      constructor
      · rintro ⟨rfl, post, rfl⟩
        exact ⟨post, rfl, rfl⟩
      · rintro ⟨post, rfl, rfl⟩
        exact ⟨rfl, post, rfl⟩

theorem listContains_iff (hay need : List Char) :
    listContains hay need = true ↔ ∃ pre post, hay = pre ++ need ++ post := by
  induction hay with
  | nil =>
    simp only [listContains, List.isEmpty_iff]
    constructor
    · rintro rfl
      exact ⟨[], [], rfl⟩
    · rintro ⟨pre, post, h⟩
      rcases List.append_eq_nil.mp (List.append_eq_nil.mp h.symm).1 with ⟨-, h2⟩
      exact h2
  | cons h t ih =>
    simp only [listContains, Bool.or_eq_true, beginsWith_iff, ih]
    constructor
    · rintro (⟨post, hEq⟩ | ⟨pre, post, rfl⟩)
      · exact ⟨[], post, by simpa using hEq⟩
      · exact ⟨h :: pre, post, rfl⟩
    · rintro ⟨pre, post, hEq⟩
      cases pre with
      | nil =>
        left
        exact ⟨post, by simpa using hEq⟩
      | cons p ps =>
        right
        simp only [List.cons_append, List.cons.injEq] at hEq
        exact ⟨ps, post, hEq.2⟩

theorem includesSub_iff (s pat : String) :
    includesSub s pat = true ↔ ContainsStr s pat :=
  listContains_iff s.toList pat.toList

/-! ## fetch_page.js: the block heuristic and the retry loop -/

/-- Lines 119–132 of fetch_page.js: the block heuristic, evaluated on the
full HTML and the (already lowercased) body text. -/
def isBlocked (html bodyText : String) : Bool :=
  includesSub bodyText "access denied for your ip" ||
  includesSub bodyText "your request was blocked" ||
  includesSub bodyText "rate limit exceeded" ||
  includesSub bodyText "too many requests from your ip" ||
  (decide (html.length < 5000) &&
    (includesSub bodyText "access denied" || includesSub bodyText "blocked"))

/-- The per-attempt environment: what the outside world supplies on one
iteration of the retry loop. `response` is the navigation result
(`none` models a missing response object); `bodyText` is the value of
the JS variable `bodyText`, i.e. `document.body.innerText.toLowerCase()`. -/
structure AttemptEnv where
  response : Option Nat
  captchaSolved : Bool
  html : String
  bodyText : String
deriving DecidableEq, Repr

/-- Outcome of the body of one loop iteration of `fetchPage`, before the
loop decides whether to retry: a thrown error (with the JS error
message), a page flagged by the block heuristic, or a clean success. -/
inductive AttemptOutcome where
  | err (msg : String)
  | blockedPage (html : String)
  | ok (html : String)
deriving DecidableEq, Repr

/-- Lines 32–133 of fetch_page.js: one iteration of the retry loop up to
the block check, with each `throw` mapped to `AttemptOutcome.err` with
the thrown message. -/
def attemptStep (url : String) (env : AttemptEnv) : AttemptOutcome :=
  match env.response with
  | none => .err "No response received"
  | some status =>
    if status = 404 then .err ("Page not found: " ++ url)
    else if 500 ≤ status then .err ("Server error (" ++ toString status ++ ")")
    else if !env.captchaSolved then .err "CAPTCHA detected but could not be solved"
    else if env.html.length < 100 then .err "Page content too short or empty"
    else if includesSub env.bodyText "Enable JavaScript and cookies to continue" then
      .err "Cloudflare challenge failed (JS disabled or detected)"
    else if isBlocked env.html env.bodyText then .blockedPage env.html
    else .ok env.html

/-- Result of a whole `fetchPage` call. `success` carries the returned
html and the `recycled` flag; `exhausted` is the error thrown after the
loop; `invalidUrl` is the early guard throw; `crash` models the
`lastError.message` access when no attempt ever ran (`retries = 0`). -/
inductive FetchOutcome where
  | success (html : String) (recycled : Bool)
  | exhausted (msg : String)
  | invalidUrl
  | crash
deriving DecidableEq, Repr

/-- The message of the error thrown after the loop (fetch_page.js line
186): it interpolates the url, the retry budget and the last failure's
message. -/
def exhaustMsg (url : String) (retries : Nat) (m : String) : String :=
  "Failed to fetch " ++ url ++ " after " ++ toString retries ++ " attempts: " ++ m

/-- The retry loop of fetch_page.js (lines 32–186). `attempt` is the JS
loop counter, `fuel` the number of iterations left (`retries - attempt`),
`wasRecycled` and `lastError` the mutable locals. On a blocked page with
attempts remaining the session is recycled and the loop continues; a
blocked page on the final attempt falls through to the success return.
In the catch branch the page is recycled after the second failed attempt
(`attempt === 1`) when no recycle has happened yet, but only when
further attempts remain. -/
def fetchLoop (url : String) (envs : Nat → AttemptEnv) (retries : Nat) :
    Nat → Nat → Bool → Option String → FetchOutcome
  | _, 0, _, none => .crash
  | _, 0, _, some m => .exhausted (exhaustMsg url retries m)
  | attempt, fuel + 1, wasRecycled, lastError =>
    match attemptStep url (envs attempt) with
    | .ok html => .success html wasRecycled
    | .blockedPage html =>
      if attempt < retries - 1 then
        fetchLoop url envs retries (attempt + 1) fuel true lastError
      else
        .success html wasRecycled
    | .err msg =>
      let wasRecycled' :=
        if attempt < retries - 1 ∧ attempt = 1 ∧ wasRecycled = false then true
        else wasRecycled
      fetchLoop url envs retries (attempt + 1) fuel wasRecycled' (some msg)

/-- fetch_page.js `fetchPage(url, page, retries)`. `preShouldRecycle`
models `getPageStats(page).shouldRecycle` before the loop (its only
effect on the observable result is the initial `wasRecycled`). -/
def fetchPage (url : String) (preShouldRecycle : Bool) (envs : Nat → AttemptEnv)
    (retries : Nat) : FetchOutcome :=
  if url = "" then .invalidUrl
  else fetchLoop url envs retries 0 retries preShouldRecycle none

/-! ## solveFont.js and decodeObfuscatedText.js -/

/-- Glyph metrics, as read from the parsed font (solveFont.js lines
21–27). The source applies `Math.round` to compensate sub-pixel drift;
the model works on the already-rounded integer metrics. -/
structure Glyph where
  xMin : Int
  xMax : Int
  yMin : Int
  yMax : Int
  advanceWidth : Int
deriving DecidableEq, Repr

/-- A parsed font: the `cmap.glyphIndexMap` as an ordered list of
(character code, glyph index) entries, plus the glyph table. -/
structure Font where
  cmap : List (Nat × Nat)
  glyphs : Nat → Glyph

/-- The two candidate catalog keys formed from a glyph's metrics
(solveFont.js lines 31–32): `"{width}x{height}"` and
`"{advanceWidth}x{width}x{height}"`. -/
def glyphKeys (g : Glyph) : String × String :=
  let width := g.xMax - g.xMin
  let height := g.yMax - g.yMin
  (toString width ++ "x" ++ toString height,
   toString g.advanceWidth ++ "x" ++ toString width ++ "x" ++ toString height)

/-- JS object assignment `decoder[k] = v` on an insertion-ordered object
modelled as an association list: overwrite an existing key in place,
otherwise append. -/
def insertAssoc (m : List (Char × Char)) (k v : Char) : List (Char × Char) :=
  if m.any (fun e => e.1 = k) then
    m.map (fun e => if e.1 = k then (k, v) else e)
  else m ++ [(k, v)]

/-- Association-list lookup; model of reading `decoder[k]` (values are
single letters, hence truthy exactly when present). -/
def lookupAssoc (m : List (Char × Char)) (k : Char) : Option Char :=
  (m.find? (fun e => e.1 = k)).map Prod.snd

/-- solveFont.js lines 12–50: walk the character map, form the two keys,
look them up in the catalog (`fontMapping[key1] || fontMapping[key2]`),
and record `decoder[inputChar] = realLetter` on a hit. -/
def buildDecoder (catalog : String → Option Char) (font : Font) :
    List (Char × Char) :=
  font.cmap.foldl
    (fun dec entry =>
      let g := font.glyphs entry.2
      let keys := glyphKeys g
      match (catalog keys.1).orElse (fun _ => catalog keys.2) with
      | some realLetter => insertAssoc dec (Char.ofNat entry.1) realLetter
      | none => dec)
    []

/-- The 52-letter alphabet of solveFont.js line 52. -/
def FULL_ALPHABET : List Char :=
  "abcdefghijklmnopqrstuvwxyzABCDEFGHIJKLMNOPQRSTUVWXYZ".toList

/-- The `for (const char of ALL_LETTERS)` scan of solveFont.js lines
69–76: the variable keeps the last alphabet letter absent from
`present`, or stays `null` when none is absent. -/
def findMissing (present : List Char) : Option Char :=
  FULL_ALPHABET.foldl
    (fun acc c => if c ∈ present then acc else some c) none

/-- solveFont.js lines 52–85: the gap-completion heuristic. When the
decoder has exactly 51 keys (and 51 values), deduce the missing key and
the missing value by scanning the alphabet and force-assign the pair
(both non-null is required, mirroring `if (missingKey && missingValue)`). -/
def completeDecoder (decoder : List (Char × Char)) : List (Char × Char) :=
  let mapKeys := decoder.map Prod.fst
  let mapValues := decoder.map Prod.snd
  if mapKeys.length = 51 ∧ mapValues.length = 51 then
    match findMissing mapKeys, findMissing mapValues with
    | some missingKey, some missingValue =>
      insertAssoc decoder missingKey missingValue
    | _, _ => decoder
  else decoder

/-- solveFont.js `solveFont(fontPath)`. The effectful front
(`fs.readFileSync` + `opentype.parse`) is modelled by the `parseResult`
input; the function body contains no try/catch, so a parse error
propagates unchanged. -/
def solveFont (catalog : String → Option Char)
    (parseResult : Except String Font) : Except String (List (Char × Char)) :=
  match parseResult with
  | .error e => .error e
  | .ok font => .ok (completeDecoder (buildDecoder catalog font))

/-- The `{text, success}` record returned by decodeObfuscatedText.js. -/
structure DecodeResult where
  text : String
  success : Bool
deriving DecidableEq, Repr

/-- The regex test `/[A-Za-z]/.test(char)`. -/
def isLatinLetter (c : Char) : Bool :=
  ('A' ≤ c && c ≤ 'Z') || ('a' ≤ c && c ≤ 'z')

/-- decodeObfuscatedText.js (the `{text, success}` version, lines 55–101
of the concatenated sources): build the map with `solveFont`; with an
empty text or an empty map return the input with `success=false`;
otherwise keep non-letters, substitute mapped letters, drop unmapped
letters, and report success when at least one letter was substituted. -/
def decodeObfuscatedText (catalog : String → Option Char)
    (parseResult : Except String Font) (encodedText : String) :
    Except String DecodeResult :=
  match solveFont catalog parseResult with
  | .error e => .error e
  | .ok glyphToCharMap =>
    let mapIsValid : Bool := decide (0 < glyphToCharMap.length)
    if encodedText = "" ∨ mapIsValid = false then
      .ok ⟨encodedText, false⟩
    else
      let res := encodedText.toList.foldl
        (fun (acc : String × Bool) c =>
          if isLatinLetter c = false then (acc.1.push c, acc.2)
          else
            match lookupAssoc glyphToCharMap c with
            | some r => (acc.1.push r, true)
            | none => acc)
        ("", false)
      .ok ⟨res.1, mapIsValid && res.2⟩

/-! ## browser_init.js: the page pool -/

/-- The per-page record stored in `pagePool` (browser_init.js lines
342–346); the fingerprint is irrelevant to the claims and omitted. -/
structure PageData where
  uses : Nat
  created : Nat
deriving DecidableEq, Repr

/-- The module state: `pagePool` as an insertion-ordered association
list from page handle to data (a JS `Map` iterates in insertion order),
plus a counter supplying fresh page handles. -/
structure PoolState where
  pool : List (Nat × PageData)
  nextHandle : Nat
deriving DecidableEq, Repr

/-- browser_init.js line 22. -/
def MAX_PAGES : Nat := 3

/-- browser_init.js line 23: `Math.floor(Math.random() * 6) + 10`, a
single module-level draw shared by the whole process; `r` models the
random sample (`Math.floor(Math.random() * 6) = r % 6`). -/
def MAX_PAGE_USES (r : Nat) : Nat := r % 6 + 10

/-- The reuse loop of `getPage` (lines 256–263): the first pooled entry
with `uses < maxUses` gets its counter incremented and is returned. -/
def reuseScan (maxUses : Nat) :
    List (Nat × PageData) → Option (Nat × List (Nat × PageData))
  | [] => none
  | (h, d) :: t =>
    if d.uses < maxUses then
      some (h, (h, { d with uses := d.uses + 1 }) :: t)
    else
      match reuseScan maxUses t with
      | some (h2, t2) => some (h2, (h, d) :: t2)
      | none => none

/-- browser_init.js `getPage(forceNew)` (lines 250–354): reuse a page
below the ceiling unless `forceNew`; otherwise delete every page at or
above the ceiling, evict the oldest (first) entry when the pool is
still at capacity, and register a fresh page with `uses = 1`. -/
def getPage (maxUses : Nat) (forceNew : Bool) (now : Nat) (st : PoolState) :
    Nat × PoolState :=
  match (if forceNew then none else reuseScan maxUses st.pool) with
  | some (h, p) => (h, { st with pool := p })
  | none =>
    let p1 := st.pool.filter (fun e => decide (e.2.uses < maxUses))
    let p2 := if MAX_PAGES ≤ p1.length then p1.tail else p1
    let h := st.nextHandle
    (h, { pool := p2 ++ [(h, ⟨1, now⟩)], nextHandle := h + 1 })

/-- browser_init.js `recyclePage(page)` (lines 413–427): drop the page
from the pool (close errors are swallowed) and call `getPage(true)`. -/
def recyclePage (maxUses : Nat) (p : Nat) (now : Nat) (st : PoolState) :
    Nat × PoolState :=
  getPage maxUses true now { st with pool := st.pool.filter (fun e => decide (e.1 ≠ p)) }

/-- browser_init.js `closeBrowser()` (lines 451–467): close every page
and clear the pool. -/
def closeBrowser (st : PoolState) : PoolState :=
  { st with pool := [] }

/-- The record returned by `getPageStats` (lines 434–446); `age` is
`none` for a page unknown to the pool (the JS object then has no `age`
field). -/
structure PageStats where
  uses : Nat
  maxUses : Nat
  shouldRecycle : Bool
  age : Option Nat
deriving DecidableEq, Repr

/-- browser_init.js `getPageStats(page)`: every page reports the same
module-level `MAX_PAGE_USES` as its `maxUses`. -/
def getPageStats (maxUses : Nat) (now : Nat) (st : PoolState) (p : Nat) :
    PageStats :=
  match st.pool.find? (fun e => decide (e.1 = p)) with
  | none => ⟨0, maxUses, true, none⟩
  | some e => ⟨e.2.uses, maxUses, decide (maxUses ≤ e.2.uses), some (now - e.2.created)⟩

/-! ## parser_init.js: entity statuses and the batch loop -/

/-- Entity lifecycle statuses (parser_init.js lines 7–12). -/
inductive Status where
  | PENDING
  | SUCCESS
  | ERROR
  | PROCESSING
deriving DecidableEq, Repr

/-- The numeric codes of parser_init.js lines 7–12. -/
def statusCode : Status → Int
  | .PENDING => 0
  | .SUCCESS => 1
  | .ERROR => -1
  | .PROCESSING => 2

/-- How one entity's discovery turns out: `ok` is `result.success`,
`fail` is `result.success = false` (discover_novel.js has then already
written ERROR itself), `exn` is an exception escaping into the catch of
the batch loop. -/
inductive DiscoveryOutcome where
  | ok
  | fail
  | exn
deriving DecidableEq, Repr

/-- The status writes one novel receives during its iteration of
`ParseNovels` (parser_init.js lines 87–156): PROCESSING at pickup (line
99); on success, discover_novel.js line 74 writes SUCCESS (status 1);
on `result.success = false`, discover_novel.js line 96 writes ERROR and
parser_init.js line 136 writes ERROR again; on an uncaught exception,
the catch at line 147 writes ERROR. -/
def novelWrites (disc : Nat → DiscoveryOutcome) (id : Nat) : List Status :=
  match disc id with
  | .ok => [.PROCESSING, .SUCCESS]
  | .fail => [.PROCESSING, .ERROR, .ERROR]
  | .exn => [.PROCESSING, .ERROR]

/-- The (entity id, status) write trace of one `ParseNovels` run over
the selected entities, in order. -/
def runTrace (disc : Nat → DiscoveryOutcome) (ids : List Nat) :
    List (Nat × Status) :=
  ids.flatMap (fun id => (novelWrites disc id).map (fun s => (id, s)))

/-- ParserWrapper line 25: `getNovelsByStatus.all(STATUS.PENDING)` over
the table rows `ids` with statuses `db`. -/
def selectPending (db : Nat → Status) (ids : List Nat) : List Nat :=
  ids.filter (fun id => decide (db id = Status.PENDING))

/-- The sub-trace of writes a given entity id receives. -/
def idWrites (trace : List (Nat × Status)) (id : Nat) : List Status :=
  (trace.filter (fun p => decide (p.1 = id))).map Prod.snd

/-! ## Concrete fixtures used by witnesses and counterexamples -/

/-- A 150-character page body: long enough to pass the 100-character
content check and short enough to be "relatively small" (< 5000). -/
def goodHtml : String := String.mk (List.replicate 150 'x')

/-- A clean attempt: HTTP 200, no CAPTCHA, valid content, no block. -/
def cleanEnv : AttemptEnv := ⟨some 200, true, goodHtml, "fine body"⟩

/-- An attempt answered with HTTP 404. -/
def notFoundEnv : AttemptEnv := ⟨some 404, true, "", ""⟩

/-- An attempt answered with HTTP 503. -/
def serverErrorEnv : AttemptEnv := ⟨some 503, true, "", ""⟩

/-- A small page whose body contains the generic phrase
"access denied": flagged by the block heuristic. -/
def blockedEnv : AttemptEnv := ⟨some 200, true, goodHtml, "access denied"⟩

/-- First attempt 404, every later attempt clean. -/
def mixedEnvs : Nat → AttemptEnv := fun n => if n = 0 then notFoundEnv else cleanEnv

/-- A catalog with no entries at all (every geometry lookup misses). -/
def noCatalog : String → Option Char := fun _ => none

/-- A one-glyph font: character code 97 (`'a'`) maps to glyph 0, whose
metrics give the key `"0x0"`. -/
def font0 : Font := ⟨[(97, 0)], fun _ => ⟨0, 0, 0, 0, 0⟩⟩

/-- A catalog resolving only the key `"0x0"`, to the letter `'b'`:
together with `font0` it yields the one-entry decoder `{a ↦ b}`. -/
def cat1 : String → Option Char := fun k => if k = "0x0" then some 'b' else none

/-- A 51-entry decoder: the identity on every alphabet letter except
the last (`'Z'` is missing as both source and target). -/
def d51 : List (Char × Char) := (FULL_ALPHABET.take 51).map (fun c => (c, c))

/-- A pool holding two pages created at different instants. -/
def poolTwo : PoolState := ⟨[(1, ⟨1, 0⟩), (2, ⟨1, 1000⟩)], 3⟩

/-- A pool at capacity: three pages, all with small use counts. -/
def poolThree : PoolState := ⟨[(1, ⟨2, 0⟩), (2, ⟨3, 10⟩), (3, ⟨1, 20⟩)], 4⟩

/-- A concrete statuses table: even ids PENDING, odd ids SUCCESS. -/
def dbW : Nat → Status := fun id => if id % 2 = 0 then .PENDING else .SUCCESS

/-- A concrete discovery environment exercising all three outcomes. -/
def discW : Nat → DiscoveryOutcome :=
  fun id => if id = 0 then .ok else if id = 2 then .fail else .exn

/-- Concrete table rows. -/
def idsW : List Nat := [0, 1, 2, 3, 4]

/-! ## Theorems: the resilient fetch protocol -/

theorem attemptStep_of_404 (url : String) (env : AttemptEnv)
    (h : env.response = some 404) :
    attemptStep url env = .err ("Page not found: " ++ url) := by
  simp [attemptStep, h]

/-- When every attempt up to the budget throws, the loop exhausts with
the message of the final attempt. -/
theorem fetchLoop_err_all (url : String) (envs : Nat → AttemptEnv) (retries : Nat)
    (msg : Nat → String)
    (hstep : ∀ a, a < retries → attemptStep url (envs a) = .err (msg a)) :
    ∀ fuel attempt wasR lastE, attempt + fuel = retries → 1 ≤ fuel →
      fetchLoop url envs retries attempt fuel wasR lastE
        = .exhausted (exhaustMsg url retries (msg (retries - 1))) := by
  intro fuel
  induction fuel with
  | zero => intro attempt wasR lastE _ h1; omega
  | succ f ih =>
    intro attempt wasR lastE hsum h1
    have ha : attempt < retries := by omega
    have hs := hstep attempt ha
    cases f with
    | zero =>
      have hae : attempt = retries - 1 := by omega
      subst hae
      simp [fetchLoop, hs]
    | succ f' =>
      simp only [fetchLoop, hs]
      exact ih (attempt + 1) _ (some (msg attempt)) (by omega) (by omega)

/-- Any run of the loop with at least one attempt left either returns a
success or exhausts carrying the error message of the final attempt. -/
theorem fetchLoop_success_or_exhaust (url : String) (envs : Nat → AttemptEnv)
    (retries : Nat) :
    ∀ fuel attempt wasR lastE, attempt + fuel = retries → 1 ≤ fuel →
      (∃ h r, fetchLoop url envs retries attempt fuel wasR lastE = .success h r) ∨
      (∃ m, attemptStep url (envs (retries - 1)) = .err m ∧
        fetchLoop url envs retries attempt fuel wasR lastE
          = .exhausted (exhaustMsg url retries m)) := by
  intro fuel
  induction fuel with
  | zero => intro attempt wasR lastE _ h1; omega
  | succ f ih =>
    intro attempt wasR lastE hsum h1
    cases hstep : attemptStep url (envs attempt) with
    | ok h => exact Or.inl ⟨h, wasR, by simp [fetchLoop, hstep]⟩
    | blockedPage h =>
      by_cases hlt : attempt < retries - 1
      · cases f with
        | zero => omega
        | succ f' =>
          have := ih (attempt + 1) true lastE (by omega) (by omega)
          simpa [fetchLoop, hstep, hlt] using this
      · exact Or.inl ⟨h, wasR, by simp [fetchLoop, hstep, hlt]⟩
    | err m =>
      cases f with
      | zero =>
        have hae : attempt = retries - 1 := by omega
        exact Or.inr ⟨m, hae ▸ hstep, by simp [fetchLoop, hstep]⟩
      | succ f' =>
        have := ih (attempt + 1)
          (if attempt < retries - 1 ∧ attempt = 1 ∧ wasR = false then true else wasR)
          (some m) (by omega) (by omega)
        simpa [fetchLoop, hstep] using this

/-- Any string contains its own final append segment. -/
theorem containsStr_append_right (a b : String) : ContainsStr (a ++ b) b :=
  ⟨a.toList, [], by simp [String.toList, String.data_append]⟩

/-- C8: the block heuristic classifies a response as blocked exactly
when the body text contains one of the four explicit phrases ("access
denied for your ip", "your request was blocked", "rate limit exceeded",
"too many requests from your ip"), or the HTML length is below 5000 and
the body contains a generic phrase ("access denied" or "blocked"); in
particular a page of length ≥ 5000 containing only a generic phrase is
not classified as blocked. -/
theorem block_heuristic_characterization (html bodyText : String) :
    isBlocked html bodyText = true ↔
      (ContainsStr bodyText "access denied for your ip" ∨
       ContainsStr bodyText "your request was blocked" ∨
       ContainsStr bodyText "rate limit exceeded" ∨
       ContainsStr bodyText "too many requests from your ip" ∨
       (html.length < 5000 ∧
         (ContainsStr bodyText "access denied" ∨ ContainsStr bodyText "blocked"))) := by
  simp only [isBlocked, Bool.or_eq_true, Bool.and_eq_true, decide_eq_true_eq,
    includesSub_iff, or_assoc]

/-- C2: a fetch call with a valid url and at least one attempt either
returns successfully within the `retries` attempts or raises the
exhausted-retries error whose message carries the final attempt's
failure message; with `retries = 3` and three consecutive 503 responses
the raised message is built from "Server error (503)" and contains that
phrase. -/
theorem fetch_returns_or_exhausts_with_last_message
    (url : String) (pre : Bool) (envs : Nat → AttemptEnv) (retries : Nat)
    (hurl : url ≠ "") (hr : 1 ≤ retries) :
    ((∃ h r, fetchPage url pre envs retries = .success h r) ∨
      (∃ m, attemptStep url (envs (retries - 1)) = .err m ∧
        fetchPage url pre envs retries = .exhausted (exhaustMsg url retries m))) ∧
    (retries = 3 → (∀ a, a < 3 → envs a = serverErrorEnv) →
      fetchPage url pre envs 3 = .exhausted (exhaustMsg url 3 "Server error (503)") ∧
      ContainsStr (exhaustMsg url 3 "Server error (503)") "Server error (503)") := by
  constructor
  · have := fetchLoop_success_or_exhaust url envs retries retries 0 pre none
      (by omega) hr
    simpa [fetchPage, hurl] using this
  · rintro rfl h503
    constructor
    · have hstep : ∀ a, a < 3 →
          attemptStep url (envs a) = .err "Server error (503)" := by
        intro a ha
        rw [h503 a ha]
        rfl
      have := fetchLoop_err_all url envs 3 (fun _ => "Server error (503)") hstep
        3 0 pre none (by omega) (by omega)
      simpa [fetchPage, hurl] using this
    · simp only [exhaustMsg]
      exact containsStr_append_right _ _

/-- Witness for C2 at url "u", three 503 attempts, retries 3. -/
theorem fetch_returns_or_exhausts_with_last_message_witness :
    ("u" : String) ≠ "" ∧ 1 ≤ 3 ∧
    (((∃ h r, fetchPage "u" false (fun _ => serverErrorEnv) 3 = .success h r) ∨
      (∃ m, attemptStep "u" ((fun _ => serverErrorEnv) (3 - 1)) = .err m ∧
        fetchPage "u" false (fun _ => serverErrorEnv) 3
          = .exhausted (exhaustMsg "u" 3 m))) ∧
     (3 = 3 → (∀ a, a < 3 → (fun _ => serverErrorEnv) a = serverErrorEnv) →
       fetchPage "u" false (fun _ => serverErrorEnv) 3
          = .exhausted (exhaustMsg "u" 3 "Server error (503)") ∧
       ContainsStr (exhaustMsg "u" 3 "Server error (503)") "Server error (503)")) :=
  ⟨by decide, by decide,
    fetch_returns_or_exhausts_with_last_message "u" false (fun _ => serverErrorEnv) 3
      (by decide) (by decide)⟩

/-- C1 (counterexample): a 404 on the first attempt does not
short-circuit the call — with a clean second attempt the same call
returns a success, so a further attempt was made and the call did not
fail. -/
theorem notFound_counterexample :
    fetchPage "u" false mixedEnvs 3 = FetchOutcome.success goodHtml false := by
  rfl

/-- C1 (amended): a 404 response throws `Page not found` for its
attempt, but the error is caught and retried like any other failure:
with a 404 on the first attempt and a clean second attempt the call
succeeds on the second attempt, and when every attempt sees a 404 the
call raises the exhausted-retries error carrying the `Page not found`
message. -/
theorem notFound_is_retried (url : String) (pre : Bool) (envs : Nat → AttemptEnv)
    (retries : Nat) (h : String) (hurl : url ≠ "") :
    (2 ≤ retries → (envs 0).response = some 404 → attemptStep url (envs 1) = .ok h →
      fetchPage url pre envs retries = .success h pre) ∧
    (1 ≤ retries → (∀ a, a < retries → (envs a).response = some 404) →
      fetchPage url pre envs retries
        = .exhausted (exhaustMsg url retries ("Page not found: " ++ url))) := by
  constructor
  · intro h2 h404 hok
    obtain ⟨k, rfl⟩ : ∃ k, retries = k + 2 := ⟨retries - 2, by omega⟩
    have h0 := attemptStep_of_404 url (envs 0) h404
    simp [fetchPage, hurl, fetchLoop, h0, hok]
  · intro h1 hall
    have hstep : ∀ a, a < retries →
        attemptStep url (envs a) = .err ("Page not found: " ++ url) :=
      fun a ha => attemptStep_of_404 url (envs a) (hall a ha)
    have := fetchLoop_err_all url envs retries (fun _ => "Page not found: " ++ url)
      hstep retries 0 pre none (by omega) h1
    simpa [fetchPage, hurl] using this

/-- Witness for C1 (amended): url "u", 404 then clean, retries 3. -/
theorem notFound_is_retried_witness :
    ("u" : String) ≠ "" ∧ 2 ≤ 3 ∧ (mixedEnvs 0).response = some 404 ∧
    attemptStep "u" (mixedEnvs 1) = .ok goodHtml ∧
    fetchPage "u" false mixedEnvs 3 = .success goodHtml false :=
  ⟨by decide, by decide, rfl, rfl,
    (notFound_is_retried "u" false mixedEnvs 3 goodHtml (by decide)).1
      (by decide) rfl rfl⟩

/-- When every attempt before the final one throws and the final
attempt produces a blocked page, the loop still returns a success. -/
theorem fetchLoop_blocked_last_reaches_success (url : String)
    (envs : Nat → AttemptEnv) (retries : Nat) (html : String)
    (hblock : attemptStep url (envs (retries - 1)) = .blockedPage html)
    (hprev : ∀ a, a < retries - 1 → ∃ m, attemptStep url (envs a) = .err m) :
    ∀ fuel attempt wasR lastE, attempt + fuel = retries → 1 ≤ fuel →
      ∃ r, fetchLoop url envs retries attempt fuel wasR lastE
        = .success html r := by
  intro fuel
  induction fuel with
  | zero => intro attempt wasR lastE _ h1; omega
  | succ f ih =>
    intro attempt wasR lastE hsum h1
    cases f with
    | zero =>
      have hae : attempt = retries - 1 := by omega
      subst hae
      refine ⟨wasR, ?_⟩
      simp [fetchLoop, hblock]
    | succ f' =>
      have ha : attempt < retries - 1 := by omega
      obtain ⟨m, hm⟩ := hprev attempt ha
      have := ih (attempt + 1)
        (if attempt < retries - 1 ∧ attempt = 1 ∧ wasR = false then true else wasR)
        (some m) (by omega) (by omega)
      simpa [fetchLoop, hm] using this

/-- C10: when the block heuristic flags the content on the final
attempt, `fetchPage` neither raises nor recycles: the loop entered at
the final attempt returns the blocked page's HTML as a `success` with
the `recycled` flag unchanged, and a full call whose earlier attempts
all failed ends in a `success` carrying the blocked HTML. -/
theorem blocked_final_attempt_returns_success (url : String) (pre : Bool)
    (envs : Nat → AttemptEnv) (retries : Nat) (html : String)
    (hr : 1 ≤ retries)
    (hblock : attemptStep url (envs (retries - 1)) = .blockedPage html) :
    (∀ wasR lastE, fetchLoop url envs retries (retries - 1) 1 wasR lastE
        = .success html wasR) ∧
    (url ≠ "" → (∀ a, a < retries - 1 → ∃ m, attemptStep url (envs a) = .err m) →
      ∃ r, fetchPage url pre envs retries = .success html r) := by
  constructor
  · intro wasR lastE
    simp [fetchLoop, hblock]
  · intro hurl hprev
    have := fetchLoop_blocked_last_reaches_success url envs retries html hblock hprev
      retries 0 pre none (by omega) hr
    simpa [fetchPage, hurl] using this

/-- Witness for C10: url "u", a single attempt answered with a small
"access denied" page. -/
theorem blocked_final_attempt_returns_success_witness :
    1 ≤ 1 ∧
    attemptStep "u" ((fun _ => blockedEnv) (1 - 1)) = .blockedPage goodHtml ∧
    ((∀ wasR lastE, fetchLoop "u" (fun _ => blockedEnv) 1 (1 - 1) 1 wasR lastE
        = .success goodHtml wasR) ∧
     (("u" : String) ≠ "" →
      (∀ a, a < 1 - 1 → ∃ m, attemptStep "u" ((fun _ => blockedEnv) a) = .err m) →
      ∃ r, fetchPage "u" false (fun _ => blockedEnv) 1 = .success goodHtml r)) :=
  ⟨by decide, rfl,
    blocked_final_attempt_returns_success "u" false (fun _ => blockedEnv) 1 goodHtml
      (by decide) rfl⟩

/-! ## Theorems: the glyph substitution decoder -/

theorem foldl_id {α β : Type} (f : β → α → β) (hf : ∀ b a, f b a = b) :
    ∀ (l : List α) (init : β), l.foldl f init = init := by
  intro l
  induction l with
  | nil => intro init; rfl
  | cons a t ih => intro init; rw [List.foldl_cons, hf]; exact ih init

/-- With a catalog that never hits, the geometry walk records nothing. -/
theorem buildDecoder_empty (catalog : String → Option Char)
    (hmiss : ∀ k, catalog k = none) (font : Font) :
    buildDecoder catalog font = [] := by
  unfold buildDecoder
  exact foldl_id _ (fun dec entry => by simp [hmiss, Option.orElse]) font.cmap []

/-- C3 (counterexample): a font parse failure propagates out of
`decodeObfuscatedText` as an error — the call does not return the input
text with `success = false`; it throws. -/
theorem decode_throws_on_parse_failure_counterexample :
    decodeObfuscatedText noCatalog (Except.error "Font parse failure") "abc"
        = Except.error "Font parse failure" ∧
      Except.error "Font parse failure"
        ≠ Except.ok (⟨"abc", false⟩ : DecodeResult) :=
  ⟨rfl, fun h => Except.noConfusion h⟩

/-- C3 (amended): a font parse failure propagates as a thrown error out
of `solveFont` and `decodeObfuscatedText`; when the font parses but no
catalog lookup hits, `solveFont` yields the empty map and
`decodeObfuscatedText` returns the input text unchanged with
`success = false`. -/
theorem decode_degrades_on_catalog_miss (catalog : String → Option Char)
    (font : Font) (text : String) (hmiss : ∀ k, catalog k = none) :
    solveFont catalog (Except.ok font) = Except.ok [] ∧
    decodeObfuscatedText catalog (Except.ok font) text = Except.ok ⟨text, false⟩ ∧
    (∀ e, decodeObfuscatedText catalog (Except.error e) text = Except.error e) := by
  have hempty : buildDecoder catalog font = [] := buildDecoder_empty catalog hmiss font
  have hsolve : solveFont catalog (Except.ok font) = Except.ok [] := by
    simp [solveFont, hempty, completeDecoder]
  refine ⟨hsolve, ?_, fun e => rfl⟩
  simp [decodeObfuscatedText, hsolve]

/-- Witness for C3 (amended): the all-miss catalog, a one-glyph font
and the text "abc". -/
theorem decode_degrades_on_catalog_miss_witness :
    (∀ k, noCatalog k = none) ∧
    (solveFont noCatalog (Except.ok font0) = Except.ok [] ∧
     decodeObfuscatedText noCatalog (Except.ok font0) "abc"
        = Except.ok ⟨"abc", false⟩ ∧
     (∀ e, decodeObfuscatedText noCatalog (Except.error e) "abc" = Except.error e)) :=
  ⟨fun _ => rfl, decode_degrades_on_catalog_miss noCatalog font0 "abc" (fun _ => rfl)⟩

/-- The success bit accumulated by the decode fold is an `any` over the
input characters: some letter of the input hits the map. -/
theorem decode_foldl_any (m : List (Char × Char)) :
    ∀ (l : List Char) (s : String) (b : Bool),
      (l.foldl (fun (acc : String × Bool) c =>
          if isLatinLetter c = false then (acc.1.push c, acc.2)
          else match lookupAssoc m c with
            | some r => (acc.1.push r, true)
            | none => acc) (s, b)).2
        = (b || l.any (fun c => isLatinLetter c && (lookupAssoc m c).isSome)) := by
  intro l
  induction l with
  | nil => intro s b; simp
  | cons c t ih =>
    intro s b
    by_cases hc : isLatinLetter c = true
    · cases hl : lookupAssoc m c with
      | some r => simp [List.foldl_cons, hc, hl, ih]
      | none => simp [List.foldl_cons, hc, hl, ih]
    · have hc' : isLatinLetter c = false := by
        cases hb : isLatinLetter c
        · rfl
        · exact absurd hb hc
      simp [List.foldl_cons, hc', ih]

/-- C4 (counterexample): with the non-empty map `{a ↦ b}` and the input
`"q"` (a letter absent from the map), decoding returns the text `""`
with `success = false`: success is correctly false, but the returned
text is not the unmodified input `"q"`. -/
theorem decode_unmodified_counterexample :
    decodeObfuscatedText cat1 (Except.ok font0) "q"
        = Except.ok (⟨"", false⟩ : DecodeResult) ∧
      ("" : String) ≠ "q" :=
  ⟨rfl, by decide⟩

/-- C4 (amended): when the map builds, `success` is reported true
exactly when the map is non-empty and at least one character of the
input hits the map; the input text is returned unchanged whenever it is
empty or the map is empty, but with a non-empty map letters absent from
the map are dropped, so a `success = false` result may differ from the
input (see the counterexample). -/
theorem decode_success_characterization (catalog : String → Option Char)
    (parseResult : Except String Font) (text : String) (m : List (Char × Char))
    (hm : solveFont catalog parseResult = Except.ok m) :
    ∃ res, decodeObfuscatedText catalog parseResult text = Except.ok res ∧
      (res.success = true ↔
        (0 < m.length ∧ text.toList.any
          (fun c => isLatinLetter c && (lookupAssoc m c).isSome) = true)) ∧
      ((text = "" ∨ m = []) → res.text = text) := by
  by_cases h0 : text = "" ∨ (decide (0 < m.length) : Bool) = false
  · refine ⟨⟨text, false⟩, ?_, ?_, fun _ => rfl⟩
    · simp only [decodeObfuscatedText, hm, if_pos h0]
    · simp only [Bool.false_eq_true, false_iff, not_and]
      intro hlen
      rcases h0 with h | h
      · subst h
        simp [String.toList]
      · simp only [decide_eq_false_iff_not] at h
        exact absurd hlen h
  · obtain ⟨ht, hd⟩ := not_or.mp h0
    have hlen : 0 < m.length := by
      rcases Bool.eq_false_or_eq_true (decide (0 < m.length)) with hb | hb
      · exact of_decide_eq_true hb
      · exact absurd hb hd
    refine ⟨⟨(text.toList.foldl
        (fun (acc : String × Bool) c =>
          if isLatinLetter c = false then (acc.1.push c, acc.2)
          else match lookupAssoc m c with
            | some r => (acc.1.push r, true)
            | none => acc) ("", false)).1,
      decide (0 < m.length) &&
        (text.toList.foldl
          (fun (acc : String × Bool) c =>
            if isLatinLetter c = false then (acc.1.push c, acc.2)
            else match lookupAssoc m c with
              | some r => (acc.1.push r, true)
              | none => acc) ("", false)).2⟩, ?_, ?_, ?_⟩
    · simp only [decodeObfuscatedText, hm, if_neg h0]
    · rw [show (⟨(text.toList.foldl _ ("", false)).1,
          decide (0 < m.length) && (text.toList.foldl _ ("", false)).2⟩ :
            DecodeResult).success
          = (decide (0 < m.length) && (text.toList.foldl _ ("", false)).2) from rfl,
        decode_foldl_any m text.toList "" false]
      simp [hlen]
    · rintro (h | h)
      · exact absurd h ht
      · subst h
        simp at hlen


/-- Witness for C4 (amended): catalog `cat1`, font `font0` (map
`{a ↦ b}`), text "a-q". -/
theorem decode_success_characterization_witness :
    solveFont cat1 (Except.ok font0) = Except.ok [('a', 'b')] ∧
    (∃ res, decodeObfuscatedText cat1 (Except.ok font0) "a-q" = Except.ok res ∧
      (res.success = true ↔
        (0 < [('a', 'b')].length ∧ ("a-q" : String).toList.any
          (fun c => isLatinLetter c && (lookupAssoc [('a', 'b')] c).isSome) = true)) ∧
      ((("a-q" : String) = "" ∨ [('a', 'b')] = ([] : List (Char × Char))) →
        res.text = "a-q")) :=
  ⟨rfl, decode_success_characterization cat1 (Except.ok font0) "a-q" [('a', 'b')] rfl⟩

theorem alphabet_nodup : FULL_ALPHABET.Nodup := by decide

theorem alphabet_length : FULL_ALPHABET.length = 52 := by decide

/-- The alphabet scan of solveFont.js keeps the last absent letter. -/
theorem foldl_last_absent (p : List Char) :
    ∀ (l : List Char) (acc : Option Char),
      l.foldl (fun a c => if c ∈ p then a else some c) acc
        = ((l.filter (fun c => decide (c ∉ p))).getLast?).elim acc some := by
  intro l
  induction l with
  | nil => intro acc; rfl
  | cons c t ih =>
    intro acc
    by_cases hc : c ∈ p
    · have hd : (decide (c ∉ p)) = false := by simp [hc]
      simp only [List.foldl_cons, if_pos hc, List.filter_cons, hd]
      exact ih acc
    · have hd : (decide (c ∉ p)) = true := by simp [hc]
      rw [List.foldl_cons, if_neg hc, ih (some c)]
      simp only [List.filter_cons, hd, if_pos trivial]
      cases hft : t.filter (fun c => decide (c ∉ p)) with
      | nil => simp
      | cons x xs =>
        have hsome : ((x :: xs).getLast?).isSome := by
          simp [List.getLast?_isSome]
        obtain ⟨y, hy⟩ := Option.isSome_iff_exists.mp hsome
        simp [List.getLast?_cons_cons, hy]

/-- A duplicate-free 51-letter subset of the 52-letter alphabet misses
exactly one letter; `findMissing` returns it, and appending it to the
subset is a permutation of the whole alphabet. -/
theorem findMissing_of_51 (p : List Char) (hnd : p.Nodup)
    (hsub : ∀ c ∈ p, c ∈ FULL_ALPHABET) (hlen : p.length = 51) :
    ∃ mch, findMissing p = some mch ∧ mch ∉ p ∧
      (p ++ [mch]).Perm FULL_ALPHABET := by
  have hperm : (FULL_ALPHABET.filter (fun c => decide (c ∈ p))).Perm p := by
    apply List.perm_of_nodup_nodup_toFinset_eq
      (List.Nodup.filter _ alphabet_nodup) hnd
    ext a
    simp only [List.mem_toFinset, List.mem_filter, decide_eq_true_eq]
    constructor
    · rintro ⟨-, h⟩; exact h
    · intro h; exact ⟨hsub a h, h⟩
  have hlen_in : (FULL_ALPHABET.filter (fun c => decide (c ∈ p))).length = 51 := by
    rw [hperm.length_eq, hlen]
  have hsplit : ((FULL_ALPHABET.filter (fun c => decide (c ∈ p)))
      ++ (FULL_ALPHABET.filter (fun c => !decide (c ∈ p)))).Perm FULL_ALPHABET :=
    List.filter_append_perm _ FULL_ALPHABET
  have hlen_out : (FULL_ALPHABET.filter (fun c => !decide (c ∈ p))).length = 1 := by
    have hl := hsplit.length_eq
    rw [List.length_append, hlen_in, alphabet_length] at hl
    omega
  have hfeq : (FULL_ALPHABET.filter (fun c => decide (c ∉ p)))
      = FULL_ALPHABET.filter (fun c => !decide (c ∈ p)) := by
    apply List.filter_congr
    intro a _
    simp [decide_not]
  obtain ⟨mch, hm⟩ := List.length_eq_one.mp hlen_out
  refine ⟨mch, ?_, ?_, ?_⟩
  · rw [show findMissing p = ((FULL_ALPHABET.filter
        (fun c => decide (c ∉ p))).getLast?).elim none some from
          foldl_last_absent p FULL_ALPHABET none, hfeq, hm]
    rfl
  · have hmem : mch ∈ FULL_ALPHABET.filter (fun c => !decide (c ∈ p)) := by
      rw [hm]; exact List.mem_singleton.mpr rfl
    have := (List.mem_filter.mp hmem).2
    simpa using this
  · have h2 : (p ++ [mch]).Perm
        ((FULL_ALPHABET.filter (fun c => decide (c ∈ p)))
          ++ (FULL_ALPHABET.filter (fun c => !decide (c ∈ p)))) := by
      rw [hm]
      exact (hperm.symm).append_right [mch]
    exact h2.trans hsplit

/-- C5: when the geometry-lookup phase has resolved exactly 51 distinct
alphabet source letters to 51 distinct alphabet target letters, the
gap-completion step force-assigns the one missing source letter to the
one missing target letter, and the completed decoder is a total
bijection over the 52-letter alphabet: its keys and its values are each
a permutation of the full alphabet. -/
theorem gap_completion_total_bijection (d : List (Char × Char))
    (hk : (d.map Prod.fst).Nodup) (hv : (d.map Prod.snd).Nodup)
    (hks : ∀ c ∈ d.map Prod.fst, c ∈ FULL_ALPHABET)
    (hvs : ∀ c ∈ d.map Prod.snd, c ∈ FULL_ALPHABET)
    (hlen : d.length = 51) :
    ((completeDecoder d).map Prod.fst).Perm FULL_ALPHABET ∧
    ((completeDecoder d).map Prod.snd).Perm FULL_ALPHABET := by
  have hklen : (d.map Prod.fst).length = 51 := by simp [hlen]
  have hvlen : (d.map Prod.snd).length = 51 := by simp [hlen]
  obtain ⟨mk, hmk, hmknot, hmkperm⟩ := findMissing_of_51 _ hk hks hklen
  obtain ⟨mv, hmv, hmvnot, hmvperm⟩ := findMissing_of_51 _ hv hvs hvlen
  have hcond : (d.map Prod.fst).length = 51 ∧ (d.map Prod.snd).length = 51 :=
    ⟨hklen, hvlen⟩
  have hany : d.any (fun e => decide (e.1 = mk)) = false := by
    rw [List.any_eq_false]
    intro e he hme
    exact hmknot (List.mem_map.mpr ⟨e, he, of_decide_eq_true hme⟩)
  have hins : completeDecoder d = d ++ [(mk, mv)] := by
    simp only [completeDecoder, insertAssoc, if_pos hcond, hmk, hmv, hany,
      Bool.false_eq_true, if_false]
  rw [hins, List.map_append, List.map_append]
  exact ⟨hmkperm, hmvperm⟩

/-- Witness for C5: the identity decoder on the first 51 alphabet
letters (missing letter `'Z'` on both sides). -/
theorem gap_completion_total_bijection_witness :
    (d51.map Prod.fst).Nodup ∧ (d51.map Prod.snd).Nodup ∧
    (∀ c ∈ d51.map Prod.fst, c ∈ FULL_ALPHABET) ∧
    (∀ c ∈ d51.map Prod.snd, c ∈ FULL_ALPHABET) ∧
    d51.length = 51 ∧
    (((completeDecoder d51).map Prod.fst).Perm FULL_ALPHABET ∧
      ((completeDecoder d51).map Prod.snd).Perm FULL_ALPHABET) :=
  ⟨by decide, by decide, by decide, by decide, by decide,
    gap_completion_total_bijection d51 (by decide) (by decide) (by decide)
      (by decide) (by decide)⟩

/-! ## Theorems: the session pool -/

/-- C6 (counterexample): the usage ceiling is not per-Session. For
every module-initialization random draw, the two pages of `poolTwo`
(created at instants 0 and 1000) report the identical `maxUses`: the
reported ceilings agree as functions of the random draw, so two
Sessions created at different times can never have different ceilings
within one process. -/
theorem per_session_ceiling_counterexample :
    (fun r => (getPageStats (MAX_PAGE_USES r) 2000 poolTwo 1).maxUses)
      = (fun r => (getPageStats (MAX_PAGE_USES r) 2000 poolTwo 2).maxUses) := by
  funext r
  rfl

/-- C6 (amended): `MAX_PAGE_USES` is a single random integer in
[10, 15] drawn once at module initialization and shared by the whole
process: `getPageStats` reports this same ceiling as `maxUses` for
every page handle in every pool state. -/
theorem shared_uses_ceiling (r : Nat) :
    10 ≤ MAX_PAGE_USES r ∧ MAX_PAGE_USES r ≤ 15 ∧
    (∀ now st p, (getPageStats (MAX_PAGE_USES r) now st p).maxUses
        = MAX_PAGE_USES r) := by
  refine ⟨?_, ?_, ?_⟩
  · show 10 ≤ r % 6 + 10
    omega
  · show r % 6 + 10 ≤ 15
    omega
  · intro now st p
    unfold getPageStats
    cases st.pool.find? (fun e => decide (e.1 = p)) <;> rfl

/-- The reuse path never changes the pool's size. -/
theorem reuseScan_length (maxUses : Nat) :
    ∀ (l : List (Nat × PageData)) (h : Nat) (l' : List (Nat × PageData)),
      reuseScan maxUses l = some (h, l') → l'.length = l.length := by
  intro l
  induction l with
  | nil => intro h l' hscan; exact absurd hscan (by simp [reuseScan])
  | cons e t ih =>
    intro h l' hscan
    obtain ⟨hh, dd⟩ := e
    by_cases hu : dd.uses < maxUses
    · simp only [reuseScan, if_pos hu, Option.some.injEq, Prod.mk.injEq] at hscan
      obtain ⟨-, rfl⟩ := hscan
      simp
    · simp only [reuseScan, if_neg hu] at hscan
      cases hscan2 : reuseScan maxUses t with
      | none => rw [hscan2] at hscan; exact absurd hscan (by simp)
      | some pr =>
        obtain ⟨h2, t2⟩ := pr
        rw [hscan2] at hscan
        simp only [Option.some.injEq, Prod.mk.injEq] at hscan
        obtain ⟨-, rfl⟩ := hscan
        simp [ih h2 t2 hscan2]

/-- The create path of `getPage` keeps the pool within capacity. -/
theorem create_branch_length (l : List (Nat × PageData)) (maxUses : Nat)
    (hlen : l.length ≤ MAX_PAGES) (x : Nat × PageData) :
    ((if MAX_PAGES ≤ (l.filter (fun e => decide (e.2.uses < maxUses))).length
      then (l.filter (fun e => decide (e.2.uses < maxUses))).tail
      else l.filter (fun e => decide (e.2.uses < maxUses))) ++ [x]).length
        ≤ MAX_PAGES := by
  have hf : (l.filter (fun e => decide (e.2.uses < maxUses))).length ≤ l.length :=
    List.length_filter_le _ _
  have h3 : MAX_PAGES = 3 := rfl
  by_cases hc : MAX_PAGES ≤ (l.filter (fun e => decide (e.2.uses < maxUses))).length
  · rw [if_pos hc]
    simp only [List.length_append, List.length_tail, List.length_singleton]
    omega
  · rw [if_neg hc]
    simp only [List.length_append, List.length_singleton]
    omega

/-- `getPage` preserves the capacity invariant. -/
theorem getPage_length (maxUses : Nat) (forceNew : Bool) (now : Nat) (st : PoolState)
    (hlen : st.pool.length ≤ MAX_PAGES) :
    ((getPage maxUses forceNew now st).2).pool.length ≤ MAX_PAGES := by
  have hcreate := create_branch_length st.pool maxUses hlen (st.nextHandle, ⟨1, now⟩)
  cases forceNew with
  | true => simpa [getPage] using hcreate
  | false =>
    cases hscan : reuseScan maxUses st.pool with
    | none => simpa [getPage, hscan] using hcreate
    | some pr =>
      obtain ⟨h, p⟩ := pr
      have hp := reuseScan_length maxUses st.pool h p hscan
      simp only [getPage, hscan]
      rw [show ((if false = true then none else some (h, p)) : Option (Nat × List (Nat × PageData)))
          = some (h, p) by simp]
      simpa [hp] using hlen

/-- C7: the pool never holds more than `MAX_SESSIONS = 3` live
Sessions: every `getPage`, `recyclePage` and `closeBrowser` preserves
`|pool| ≤ 3`; and acquiring a fourth distinct Session
(`getPage(forceNew = true)`) while all three pooled Sessions are below
their ceiling evicts exactly the oldest (first) entry before
registering the new one. -/
theorem pool_capacity_invariant (maxUses : Nat) (st : PoolState)
    (hlen : st.pool.length ≤ MAX_PAGES) :
    (∀ forceNew now, ((getPage maxUses forceNew now st).2).pool.length ≤ MAX_PAGES) ∧
    (∀ p now, ((recyclePage maxUses p now st).2).pool.length ≤ MAX_PAGES) ∧
    ((closeBrowser st).pool.length ≤ MAX_PAGES) ∧
    (st.pool.length = MAX_PAGES → (∀ e ∈ st.pool, e.2.uses < maxUses) →
      ∀ now, ((getPage maxUses true now st).2).pool
        = st.pool.tail ++ [(st.nextHandle, ⟨1, now⟩)]) := by
  refine ⟨fun forceNew now => getPage_length maxUses forceNew now st hlen,
    fun p now => ?_, by simp [closeBrowser, MAX_PAGES], ?_⟩
  · show ((getPage maxUses true now
        ⟨st.pool.filter (fun e => decide (e.1 ≠ p)), st.nextHandle⟩).2).pool.length
      ≤ MAX_PAGES
    exact getPage_length maxUses true now _
      (le_trans (List.length_filter_le _ _) hlen)
  · intro heq hall now
    have hfilter : st.pool.filter (fun e => decide (e.2.uses < maxUses)) = st.pool :=
      List.filter_eq_self.mpr (fun e he => decide_eq_true (hall e he))
    simp [getPage, hfilter, heq]

/-- Witness for C7: ceiling 12 and the three-page pool `poolThree`. -/
theorem pool_capacity_invariant_witness :
    poolThree.pool.length ≤ MAX_PAGES ∧
    ((∀ forceNew now, ((getPage 12 forceNew now poolThree).2).pool.length ≤ MAX_PAGES) ∧
     (∀ p now, ((recyclePage 12 p now poolThree).2).pool.length ≤ MAX_PAGES) ∧
     ((closeBrowser poolThree).pool.length ≤ MAX_PAGES) ∧
     (poolThree.pool.length = MAX_PAGES →
      (∀ e ∈ poolThree.pool, e.2.uses < 12) →
      ∀ now, ((getPage 12 true now poolThree).2).pool
        = poolThree.pool.tail ++ [(poolThree.nextHandle, ⟨1, now⟩)])) :=
  ⟨by decide, pool_capacity_invariant 12 poolThree (by decide)⟩

/-! ## Theorems: the batch loop state machine -/

/-- Every write in a run's trace names a selected entity. -/
theorem runTrace_fst (disc : Nat → DiscoveryOutcome) :
    ∀ (ids : List Nat) (pr : Nat × Status), pr ∈ runTrace disc ids → pr.1 ∈ ids := by
  intro ids
  induction ids with
  | nil => intro pr h; simp [runTrace] at h
  | cons a t ih =>
    intro pr h
    simp only [runTrace, List.flatMap_cons, List.mem_append] at h
    rcases h with h | h
    · obtain ⟨s, hs, rfl⟩ := List.mem_map.mp h
      exact List.mem_cons_self a t
    · exact List.mem_cons_of_mem a (ih pr h)

/-- Over duplicate-free selected ids, the writes a selected entity
receives are exactly its own per-entity write sequence. -/
theorem idWrites_runTrace (disc : Nat → DiscoveryOutcome) :
    ∀ (ids : List Nat), ids.Nodup → ∀ id ∈ ids,
      idWrites (runTrace disc ids) id = novelWrites disc id := by
  intro ids
  induction ids with
  | nil => intro _ id h; exact absurd h (List.not_mem_nil id)
  | cons a t ih =>
    intro hnd id hid
    obtain ⟨hna, hndt⟩ := List.nodup_cons.mp hnd
    rw [show runTrace disc (a :: t)
        = (novelWrites disc a).map (fun s => (a, s)) ++ runTrace disc t from rfl]
    rw [idWrites, List.filter_append, List.map_append]
    rcases List.mem_cons.mp hid with rfl | hidt
    · have h1 : ((novelWrites disc id).map (fun s => (id, s))).filter
          (fun p => decide (p.1 = id))
            = (novelWrites disc id).map (fun s => (id, s)) := by
        apply List.filter_eq_self.mpr
        intro p hp
        obtain ⟨s, -, rfl⟩ := List.mem_map.mp hp
        simp
      have h2 : (runTrace disc t).filter (fun p => decide (p.1 = id)) = [] := by
        rw [List.filter_eq_nil_iff]
        intro p hp
        have hpt := runTrace_fst disc t p hp
        simp only [decide_eq_true_eq]
        exact fun hpa => hna (hpa ▸ hpt)
      rw [h1, h2]
      simp [List.map_map, Function.comp]
    · have hne : id ≠ a := fun h => hna (h ▸ hidt)
      have h1 : ((novelWrites disc a).map (fun s => (a, s))).filter
          (fun p => decide (p.1 = id)) = [] := by
        rw [List.filter_eq_nil_iff]
        intro p hp
        obtain ⟨s, -, rfl⟩ := List.mem_map.mp hp
        simp only [decide_eq_true_eq]
        exact fun h => hne h.symm
      rw [h1]
      simp only [List.map_nil, List.nil_append]
      exact ih hndt id hidt

/-- Each selected entity's write sequence starts with PROCESSING, ends
in SUCCESS or ERROR, never writes PROCESSING again after the first
write, and never reaches both SUCCESS and ERROR. -/
theorem novelWrites_shape (disc : Nat → DiscoveryOutcome) (id : Nat) :
    (novelWrites disc id).head? = some Status.PROCESSING ∧
    ((novelWrites disc id).getLast? = some Status.SUCCESS ∨
      (novelWrites disc id).getLast? = some Status.ERROR) ∧
    (∀ s ∈ (novelWrites disc id).tail, s ≠ Status.PROCESSING) ∧
    ¬(Status.SUCCESS ∈ (novelWrites disc id).tail ∧
      Status.ERROR ∈ (novelWrites disc id).tail) := by
  cases h : disc id <;> simp only [novelWrites, h] <;> decide

/-- C9: within one batch run only entities whose status is PENDING are
selected; every selected entity receives the write sequence
PROCESSING, then exactly one terminal of SUCCESS or ERROR (possibly
repeated for ERROR), with no PROCESSING write after the first and never
both terminals — so no entity moves from SUCCESS or ERROR back to
PROCESSING within the run. -/
theorem batch_status_state_machine (db : Nat → Status)
    (disc : Nat → DiscoveryOutcome) (ids : List Nat) (hnd : ids.Nodup) :
    (∀ id ∈ selectPending db ids, db id = Status.PENDING) ∧
    (∀ id ∈ selectPending db ids,
      idWrites (runTrace disc (selectPending db ids)) id = novelWrites disc id ∧
      (novelWrites disc id).head? = some Status.PROCESSING ∧
      ((novelWrites disc id).getLast? = some Status.SUCCESS ∨
        (novelWrites disc id).getLast? = some Status.ERROR) ∧
      (∀ s ∈ (novelWrites disc id).tail, s ≠ Status.PROCESSING) ∧
      ¬(Status.SUCCESS ∈ (novelWrites disc id).tail ∧
        Status.ERROR ∈ (novelWrites disc id).tail)) := by
  constructor
  · intro id hmem
    exact of_decide_eq_true (List.mem_filter.mp hmem).2
  · intro id hmem
    obtain ⟨hh, hl, ht, hb⟩ := novelWrites_shape disc id
    exact ⟨idWrites_runTrace disc _ (List.Nodup.filter _ hnd) id hmem,
      hh, hl, ht, hb⟩

/-- Witness for C9: the concrete table `dbW`/`idsW` and discovery
environment `discW`. -/
theorem batch_status_state_machine_witness :
    idsW.Nodup ∧
    ((∀ id ∈ selectPending dbW idsW, dbW id = Status.PENDING) ∧
     (∀ id ∈ selectPending dbW idsW,
       idWrites (runTrace discW (selectPending dbW idsW)) id
          = novelWrites discW id ∧
       (novelWrites discW id).head? = some Status.PROCESSING ∧
       ((novelWrites discW id).getLast? = some Status.SUCCESS ∨
         (novelWrites discW id).getLast? = some Status.ERROR) ∧
       (∀ s ∈ (novelWrites discW id).tail, s ≠ Status.PROCESSING) ∧
       ¬(Status.SUCCESS ∈ (novelWrites discW id).tail ∧
         Status.ERROR ∈ (novelWrites discW id).tail))) :=
  ⟨by decide, batch_status_state_machine dbW discW idsW (by decide)⟩

end NovelParser
